import Mathlib

/-!
# Verification of the BSC USDT payment gateway (amount-tagging & reconciliation)

Shallow embedding of `src/index.js`.  The repository holds two variants of the
gateway in one file:

* the **memory variant** (lines 1–241): a `Map` of invoices plus a single
  `lastProcessedTime` high-water mark;
* the **db variant** (lines 242–571): Postgres-backed invoices with a
  `UNIQUE` constraint on `pay_amount` and a `processed_txs` dedup ledger.

Modelling conventions:

* All merchant-facing amounts in the code are produced by `roundTo3` /
  `.toFixed(3)`, i.e. they are exact multiples of `0.001`.  We represent them
  as natural numbers counting **milli-units** (`10.001` ↦ `10001`).  With the
  configured grids (`TAG_STEP`, `TAG_MAX` multiples of `0.001`) the floating
  accumulation `t += TAG_STEP` followed by `roundTo3(t)` lands exactly on the
  milli grid, so the tag loop is the integer grid scan `tagGrid`.
* The stored invoice fields `requestedAmount`/`tag`/`payAmount` are
  `.toFixed(3)` **strings**.  This matters in the memory variant's
  `allocateTag()`, whose `used` set therefore holds strings while the grid
  probe `roundTo3(t)` is a number: `Set.prototype.has` (SameValueZero, no
  coercion) never matches, which the model keeps visible through the
  `JsValue` sum type.  The db variant's `allocateTagFromDb()` converts with
  `Number(r.tag)` and its membership test is genuinely numeric.
* `ethers.parseUnits(s, D)` of a decimal string with `e ≤ D` fractional
  digits is exactly `mantissa * 10 ^ (D - e)`; `ethers.formatUnits(v, D)`
  produces a decimal string whose mantissa/exponent pair is `(v, D)` (after
  trailing-zero trimming, which does not change the parsed value).  A decimal
  string is therefore embedded as a `Decimal` mantissa/exponent pair.
* JS `Map` iteration is insertion order, so invoice storage is a `List`
  (`Map.set` with the fresh `crypto.randomUUID key` is list append).
* Timestamps (`NOW()`, `seen_at`, `timeStamp`) are naturals (seconds).
-/

set_option maxHeartbeats 1000000

namespace Gateway

/-- Invoice lifecycle status: the strings `"pending"` / `"confirmed"` of the
source, as an enumeration. -/
inductive Status where
  | pending
  | confirmed
deriving DecidableEq

/-- A fixed-precision decimal string: the value `mant / 10 ^ exp`, written
with `exp` fractional digits.  Invoice amounts are produced by `.toFixed(3)`
(`exp = 3`); `formatTokenAmount rawValue` is `⟨rawValue, DECIMALS⟩`. -/
structure Decimal where
  mant : Nat
  exp : Nat
deriving DecidableEq

/-- `ethers.parseUnits` of the decimal string `d` at `DECIMALS` fractional
digits: the exact smallest-unit integer (defined when `d.exp ≤ DECIMALS`;
ethers throws otherwise, and every use in the source has `d.exp ≤ DECIMALS`). -/
def parseUnits (d : Decimal) (DECIMALS : Nat) : Nat :=
  d.mant * 10 ^ (DECIMALS - d.exp)

/-- `amountsEqual(aStr, bStr)` (src/index.js:88-92 and 374-378): compare two
decimal strings by converting both to integer smallest units. -/
def amountsEqual (a b : Decimal) (DECIMALS : Nat) : Bool :=
  parseUnits a DECIMALS == parseUnits b DECIMALS

/-- An invoice record (src/index.js:155-164 / 430-439).  `requestedAmount`,
`tag` and `payAmount` are the 3-decimal strings of the source, in milli-units.
`toAddress` is the constant wallet address and `createdAt` the creation time;
neither is read by any modelled operation, so they are omitted. -/
structure Invoice where
  id : Nat
  requestedAmount : Nat
  tag : Nat
  payAmount : Nat
  status : Status
  txHash : Option String
deriving DecidableEq

/-- The invoices whose `status` is `pending` (`WHERE status='pending'`, and
the `if (inv.status !== "pending") continue` filters). -/
def pendingInvoices (invs : List Invoice) : List Invoice :=
  invs.filter (fun i => decide (i.status = Status.pending))

/-- The *numeric* tag values of the currently pending invoices: this is the
`used` set of `allocateTagFromDb()` (src/index.js:383-386), which converts the
stored tags back to numbers with `Number(r.tag)`. -/
def pendingTags (invs : List Invoice) : List Nat :=
  (pendingInvoices invs).map Invoice.tag

/-- The tag grid scanned by both allocators (src/index.js:80 and 388):
`TAG_STEP, 2·TAG_STEP, …` while `≤ TAG_MAX`, in milli-units. -/
def tagGrid (TAG_STEP TAG_MAX : Nat) : List Nat :=
  List.range' TAG_STEP (TAG_MAX / TAG_STEP) TAG_STEP

/-- `allocateTagFromDb()` (src/index.js:381-393): the `used` set is
`Number(r.tag)` of the pending rows — *numbers* — so the numeric grid probe
genuinely tests membership; returns the first unused grid value, `none`
(JS `null`) when every slot is occupied. -/
def allocateTagFromDb (invs : List Invoice) (TAG_STEP TAG_MAX : Nat) : Option Nat :=
  (tagGrid TAG_STEP TAG_MAX).find? (fun t => !((pendingTags invs).contains t))

/-- A JavaScript value as it sits in the memory variant's `used` set:
`Set.prototype.has` compares with SameValueZero, which never equates a string
with a number, so the two kinds must be kept distinct. -/
inductive JsValue where
  | str (s : String)
  | num (milli : Nat)
deriving DecidableEq

/-- `x.toFixed(3)` of an exact milli-unit value: the decimal string with
exactly three fractional digits (`10001 ↦ "10.001"`, `1 ↦ "0.001"`). -/
def toFixed3 (milli : Nat) : String :=
  Nat.repr (milli / 1000) ++ "." ++ (Nat.repr (1000 + milli % 1000)).drop 1

/-- The `used` set of the memory variant's `allocateTag()`
(src/index.js:75-78): the **stored** tags of pending invoices — and the store
keeps `tag: tag.toFixed(3)` (src/index.js:158), a *string*. -/
def usedTagsMem (invs : List Invoice) : List JsValue :=
  (pendingInvoices invs).map (fun i => JsValue.str (toFixed3 i.tag))

/-- `allocateTag()` of the memory variant (src/index.js:73-85): scan the grid
and return the first value whose probe is not in `used`.  The probe
`roundTo3(t)` is a *number* while `used` holds the stored tag *strings*, and
`Set.prototype.has` (SameValueZero) does not coerce — the check is therefore
comparing `JsValue.num` against `JsValue.str` entries.  `null` is returned
only when the loop body never runs, i.e. when the grid itself is empty. -/
def allocateTag (invs : List Invoice) (TAG_STEP TAG_MAX : Nat) : Option Nat :=
  (tagGrid TAG_STEP TAG_MAX).find?
    (fun t => !(decide (JsValue.num t ∈ usedTagsMem invs)))

/-- Outcome of `POST /api/invoices` (src/index.js:138-168 and 415-453).
`insertFailed` is the db variant's `500` when the `UNIQUE pay_amount`
constraint rejects the insert. -/
inductive CreateResult where
  | badRequest
  | capacityExhausted
  | insertFailed
  | created (inv : Invoice)
deriving DecidableEq

/-- The memory variant's invoice-creation handler (src/index.js:138-168):
validate the amount (`400` when not positive), call `allocateTag` (`503` when
`null`), build the invoice with `payAmount = requestedAmount + tag` (computed
on the *numbers*, before the `.toFixed(3)` storage) and append it to the
`Map`.  `amountMilli` is the already-rounded requested amount in
milli-units. -/
def createInvoice (invs : List Invoice) (id amountMilli TAG_STEP TAG_MAX : Nat) :
    CreateResult × List Invoice :=
  if amountMilli = 0 then (CreateResult.badRequest, invs)
  else
    match allocateTag invs TAG_STEP TAG_MAX with
    | none => (CreateResult.capacityExhausted, invs)
    | some tag =>
      let inv : Invoice :=
        { id := id, requestedAmount := amountMilli, tag := tag,
          payAmount := amountMilli + tag, status := Status.pending, txHash := none }
      (CreateResult.created inv, invs ++ [inv])

/-- The db variant's invoice-creation handler (src/index.js:415-453): same
validation, allocate with `allocateTagFromDb` (`503` when `null`), then
`INSERT` into a table whose `pay_amount` column is `UNIQUE`
(src/index.js:327) — a duplicate pay amount makes the insert fail and the
handler answers `500` without storing anything. -/
def createInvoiceDb (invs : List Invoice) (id amountMilli TAG_STEP TAG_MAX : Nat) :
    CreateResult × List Invoice :=
  if amountMilli = 0 then (CreateResult.badRequest, invs)
  else
    match allocateTagFromDb invs TAG_STEP TAG_MAX with
    | none => (CreateResult.capacityExhausted, invs)
    | some tag =>
      let inv : Invoice :=
        { id := id, requestedAmount := amountMilli, tag := tag,
          payAmount := amountMilli + tag, status := Status.pending, txHash := none }
      if invs.any (fun j => decide (j.payAmount = inv.payAmount)) then
        (CreateResult.insertFailed, invs)
      else (CreateResult.created inv, invs ++ [inv])

/-- One entry of the transfer feed (`tokentx` rows): transaction hash,
destination address (the source's `t.to`; `to` is reserved in Lean), raw
smallest-unit value, timestamp. -/
structure Transfer where
  hash : String
  toAddr : String
  value : Nat
  timeStamp : Nat
deriving DecidableEq

/-- A feed reply (`data` in `fetchIncomingUsdtTransfers`): `status` string and
optional `result` list (`none` models a missing/falsy `result`). -/
structure FeedResponse where
  status : String
  result : Option (List Transfer)
deriving DecidableEq

/-- `fetchIncomingUsdtTransfers()` (src/index.js:106-112 and 361-367): a
missing body, missing `result`, or `status ≠ "1"` (\"No transactions found\",
rate limits) is an empty page. -/
def fetchIncomingUsdtTransfers (data : Option FeedResponse) : List Transfer :=
  match data with
  | none => []
  | some d =>
    match d.result with
    | none => []
    | some transfers => if d.status ≠ "1" then [] else transfers

/-- JS `String.prototype.toLowerCase()` as used on addresses and transaction
hashes (ASCII hex strings): lower-case every character. -/
def toLowerCase (s : String) : String :=
  ⟨s.data.map Char.toLower⟩

/-- State of the memory variant: the `invoices` map (insertion order) and the
`lastProcessedTime` high-water mark (src/index.js:61-63). -/
structure MemState where
  invoices : List Invoice
  lastProcessedTime : Nat
deriving DecidableEq

/-- The matching loop of the memory variant (src/index.js:210-217): walk the
invoices in store order, skip non-pending ones, confirm the first whose
`payAmount` equals the received amount in smallest units, then `break`. -/
def confirmFirstMatch (DECIMALS : Nat) (received : Decimal) (tx : String) :
    List Invoice → List Invoice
  | [] => []
  | i :: rest =>
    if i.status = Status.pending ∧ amountsEqual ⟨i.payAmount, 3⟩ received DECIMALS = true then
      { i with status := Status.confirmed, txHash := some tx } :: rest
    else
      i :: confirmFirstMatch DECIMALS received tx rest

/-- One transfer of the memory variant's `depositLoop` body
(src/index.js:198-217): skip a zero/missing timestamp, skip anything at or
below the high-water mark, skip transfers to another address, otherwise run
the matching loop on the received amount. -/
def processTransferMem (addr : String) (DECIMALS : Nat) (s : MemState) (t : Transfer) :
    MemState :=
  if t.timeStamp = 0 then s
  else if t.timeStamp ≤ s.lastProcessedTime then s
  else if toLowerCase t.toAddr ≠ toLowerCase addr then s
  else { s with invoices := confirmFirstMatch DECIMALS ⟨t.value, DECIMALS⟩ t.hash s.invoices }

/-- One full cycle of the memory variant's `depositLoop` (src/index.js:194-229):
process the page in feed order, then advance `lastProcessedTime` to the first
(newest) entry's timestamp when that is larger. -/
def runCycleMem (addr : String) (DECIMALS : Nat) (s : MemState) (transfers : List Transfer) :
    MemState :=
  let s1 := transfers.foldl (processTransferMem addr DECIMALS) s
  match transfers with
  | [] => s1
  | t0 :: _ =>
    if s1.lastProcessedTime < t0.timeStamp then
      { s1 with lastProcessedTime := t0.timeStamp }
    else s1

/-- State of the db variant: the `invoices` table (insertion order) and the
`processed_txs` dedup ledger as `(tx_hash, seen_at)` pairs. -/
structure DbState where
  invoices : List Invoice
  processed : List (String × Nat)
deriving DecidableEq

/-- Observable log events of the db variant's `depositLoop`: the
"Confirmed invoice" line and the "no invoice match" (unmatched deposit) line. -/
inductive Event where
  | confirmed (invId : Nat) (txHash : String)
  | unmatched (value : Nat) (txHash : String)
deriving DecidableEq

/-- `NOW() - INTERVAL '30 days'` as a span in seconds (src/index.js:543). -/
def RETENTION_SECONDS : Nat := 30 * 24 * 60 * 60

/-- The conditional confirmation `UPDATE invoices SET status='confirmed',
tx_hash=$1 WHERE id=$2 AND status='pending'` (src/index.js:528-531). -/
def confirm (invs : List Invoice) (id : Nat) (tx : String) : List Invoice :=
  invs.map (fun i =>
    if i.id = id ∧ i.status = Status.pending then
      { i with status := Status.confirmed, txHash := some tx }
    else i)

/-- One transfer of the db variant's `depositLoop` body (src/index.js:500-539):
skip an empty hash, skip other destinations, skip hashes already in
`processed_txs`; otherwise find the first pending invoice whose `pay_amount`
equals the received amount in smallest units, confirm it (or log an unmatched
deposit), and record the lower-cased hash as processed at time `now`. -/
def processTransferDb (addr : String) (DECIMALS now : Nat) (s : DbState) (t : Transfer) :
    DbState × List Event :=
  let txHash := toLowerCase t.hash
  if txHash = "" then (s, [])
  else if toLowerCase t.toAddr ≠ toLowerCase addr then (s, [])
  else if s.processed.any (fun p => decide (p.1 = txHash)) then (s, [])
  else
    let receivedAmount : Decimal := ⟨t.value, DECIMALS⟩
    match (pendingInvoices s.invoices).find?
        (fun i => amountsEqual ⟨i.payAmount, 3⟩ receivedAmount DECIMALS) with
    | some inv =>
      ({ invoices := confirm s.invoices inv.id t.hash,
         processed := s.processed ++ [(txHash, now)] },
       [Event.confirmed inv.id t.hash])
    | none =>
      ({ s with processed := s.processed ++ [(txHash, now)] },
       [Event.unmatched t.value txHash])

/-- `DELETE FROM processed_txs WHERE seen_at < NOW() - INTERVAL '30 days'`
(src/index.js:543): keep the records whose age is within the retention
window. -/
def pruneProcessed (now : Nat) (s : DbState) : DbState :=
  { s with processed := s.processed.filter (fun p => !decide (p.2 + RETENTION_SECONDS < now)) }

/-- One full cycle of the db variant's `depositLoop` (src/index.js:496-549)
at wall-clock time `now`: process the page in feed order, collecting the log
events, then prune the dedup ledger. -/
def runCycleDb (addr : String) (DECIMALS now : Nat) (s : DbState) (transfers : List Transfer) :
    DbState × List Event :=
  let folded := transfers.foldl
    (fun acc t =>
      let r := processTransferDb addr DECIMALS now acc.1 t
      (r.1, acc.2 ++ r.2))
    (s, ([] : List Event))
  (pruneProcessed now folded.1, folded.2)

/-- States of the memory variant reachable from the empty store by interleaving
invoice creations (`POST /api/invoices`, with the fresh `crypto.randomUUID`
ids) and reconciliation cycles over arbitrary feed pages. -/
inductive ReachableMem (addr : String) (DECIMALS TAG_STEP TAG_MAX : Nat) : MemState → Prop where
  | init : ReachableMem addr DECIMALS TAG_STEP TAG_MAX ⟨[], 0⟩
  | create (s : MemState) (id amountMilli : Nat)
      (hs : ReachableMem addr DECIMALS TAG_STEP TAG_MAX s)
      (hid : ∀ i ∈ s.invoices, i.id ≠ id) :
      ReachableMem addr DECIMALS TAG_STEP TAG_MAX
        { s with invoices := (createInvoice s.invoices id amountMilli TAG_STEP TAG_MAX).2 }
  | cycle (s : MemState) (transfers : List Transfer)
      (hs : ReachableMem addr DECIMALS TAG_STEP TAG_MAX s) :
      ReachableMem addr DECIMALS TAG_STEP TAG_MAX (runCycleMem addr DECIMALS s transfers)

/-! ## Helper lemmas -/

/-- `find?` on an ascending list returns a minimal element among those
satisfying the predicate. -/
theorem find?_min_of_sorted {p : Nat → Bool} :
    ∀ {l : List Nat} {a : Nat}, l.Pairwise (· ≤ ·) → l.find? p = some a →
      ∀ b ∈ l, p b = true → a ≤ b := by
  intro l
  induction l with
  | nil => intro a _ hf; simp at hf
  | cons x xs ih =>
    intro a hs hf b hb hpb
    by_cases hx : p x
    · rw [List.find?_cons_of_pos _ hx] at hf
      cases hf
      rcases List.mem_cons.mp hb with rfl | hb'
      · exact Nat.le_refl _
      · exact (List.pairwise_cons.mp hs).1 b hb'
    · rw [List.find?_cons_of_neg _ hx] at hf
      rcases List.mem_cons.mp hb with rfl | hb'
      · exact absurd hpb hx
      · exact ih (List.pairwise_cons.mp hs).2 hf b hb' hpb

/-- A successful db-variant allocation is a grid point that no pending
invoice uses. -/
theorem allocateTagFromDb_fresh {invs : List Invoice} {TAG_STEP TAG_MAX t : Nat}
    (h : allocateTagFromDb invs TAG_STEP TAG_MAX = some t) :
    t ∈ tagGrid TAG_STEP TAG_MAX ∧ t ∉ pendingTags invs := by
  refine ⟨List.mem_of_find?_eq_some h, ?_⟩
  have hp := List.find?_some h
  intro hmem
  have hc : (pendingTags invs).contains t = true := List.elem_iff.mpr hmem
  rw [hc] at hp
  simp at hp

/-- A numeric probe is never a member of the memory variant's `used` set,
which holds only the stored tag strings. -/
theorem num_not_mem_usedTagsMem (invs : List Invoice) (t : Nat) :
    JsValue.num t ∉ usedTagsMem invs := by
  intro h
  rcases List.mem_map.mp h with ⟨i, _, hi⟩
  exact JsValue.noConfusion hi

/-- Whenever the grid is nonempty, the memory variant's `allocateTag` returns
its first point `TAG_STEP`, whatever the pending invoices are: the
string-typed `used` set can never contain the numeric probe. -/
theorem allocateTag_head (invs : List Invoice) (TAG_STEP TAG_MAX : Nat)
    (h : tagGrid TAG_STEP TAG_MAX ≠ []) :
    allocateTag invs TAG_STEP TAG_MAX = some TAG_STEP := by
  unfold allocateTag
  unfold tagGrid at h ⊢
  cases hn : TAG_MAX / TAG_STEP with
  | zero =>
    rw [hn] at h
    exact absurd rfl h
  | succ n =>
    have hpos : (!(decide (JsValue.num TAG_STEP ∈ usedTagsMem invs))) = true := by
      simp [num_not_mem_usedTagsMem invs TAG_STEP]
    rw [List.range'_succ]
    exact List.find?_cons_of_pos _ hpos

/-! ## C4 — allocator minimality -/

/-- Counterexample for C4 as stated: the claim's primary symbol, the memory
variant's `allocateTag` (src/index.js:73-85), does *not* return the smallest
unused grid value.  Its `used` set holds the stored tag strings
(`tag.toFixed(3)`, src/index.js:158) while the probe is a number, and
`Set.prototype.has` never matches across types — so with pending tags
`{0.001, 0.002}` it returns `0.001` (an already-occupied tag), not `0.003`. -/
theorem allocateTag_ignores_pending_tags :
    allocateTag [⟨0, 10000, 1, 10001, Status.pending, none⟩,
        ⟨1, 10000, 2, 10002, Status.pending, none⟩] 1 99 = some 1 ∧
      (1 : Nat) ∈ pendingTags [⟨0, 10000, 1, 10001, Status.pending, none⟩,
        ⟨1, 10000, 2, 10002, Status.pending, none⟩] := by
  exact ⟨by decide, by decide⟩

/-- C4 (amended): the db variant's `allocateTagFromDb` — whose `used` set is
numeric — returns the smallest grid value not used by a pending invoice
(`0.003` for pending tags `{0.001, 0.002}`); the memory variant's
`allocateTag`, whose string-typed `used` set never matches the numeric probe,
instead returns the first grid point `TAG_STEP` regardless of the pending
tags (`0.001` on the same input). -/
theorem tag_allocation_minimality (invs : List Invoice) (TAG_STEP TAG_MAX t : Nat)
    (h : allocateTagFromDb invs TAG_STEP TAG_MAX = some t) :
    (t ∈ tagGrid TAG_STEP TAG_MAX ∧ t ∉ pendingTags invs ∧
      ∀ u ∈ tagGrid TAG_STEP TAG_MAX, u ∉ pendingTags invs → t ≤ u) ∧
    (∀ (invs2 : List Invoice) (step2 max2 : Nat), tagGrid step2 max2 ≠ [] →
      allocateTag invs2 step2 max2 = some step2) ∧
    allocateTagFromDb [⟨0, 10000, 1, 10001, Status.pending, none⟩,
        ⟨1, 10000, 2, 10002, Status.pending, none⟩] 1 99 = some 3 ∧
    allocateTag [⟨0, 10000, 1, 10001, Status.pending, none⟩,
        ⟨1, 10000, 2, 10002, Status.pending, none⟩] 1 99 = some 1 := by
  obtain ⟨h1, h2⟩ := allocateTagFromDb_fresh h
  refine ⟨⟨h1, h2, ?_⟩, fun invs2 step2 max2 hg => allocateTag_head invs2 step2 max2 hg,
    by decide, by decide⟩
  intro u hu hnu
  have hsorted : (tagGrid TAG_STEP TAG_MAX).Pairwise (· ≤ ·) :=
    List.pairwise_le_range' _ _ _
  refine find?_min_of_sorted hsorted h u hu ?_
  have hc : (pendingTags invs).contains u = false := by
    rw [← Bool.not_eq_true]
    intro hc
    exact hnu (List.elem_iff.mp hc)
  simp [hc]
  exact hnu

/-- Witness for C4 (amended): pending tags `{0.001, 0.002}` under the default
grid; the db allocator returns the minimal unused `0.003`, the memory one
returns `0.001`. -/
theorem tag_allocation_minimality_witness :
    (3 ∈ tagGrid 1 99 ∧
      3 ∉ pendingTags [⟨0, 10000, 1, 10001, Status.pending, none⟩,
        ⟨1, 10000, 2, 10002, Status.pending, none⟩]) ∧
      allocateTagFromDb [⟨0, 10000, 1, 10001, Status.pending, none⟩,
        ⟨1, 10000, 2, 10002, Status.pending, none⟩] 1 99 = some 3 ∧
      allocateTag [⟨0, 10000, 1, 10001, Status.pending, none⟩,
        ⟨1, 10000, 2, 10002, Status.pending, none⟩] 1 99 = some 1 :=
  ⟨⟨(tag_allocation_minimality [⟨0, 10000, 1, 10001, Status.pending, none⟩,
        ⟨1, 10000, 2, 10002, Status.pending, none⟩] 1 99 3 (by decide)).1.1,
    (tag_allocation_minimality [⟨0, 10000, 1, 10001, Status.pending, none⟩,
        ⟨1, 10000, 2, 10002, Status.pending, none⟩] 1 99 3 (by decide)).1.2.1⟩,
   (tag_allocation_minimality [⟨0, 10000, 1, 10001, Status.pending, none⟩,
        ⟨1, 10000, 2, 10002, Status.pending, none⟩] 1 99 3 (by decide)).2.2.1,
   (tag_allocation_minimality [⟨0, 10000, 1, 10001, Status.pending, none⟩,
        ⟨1, 10000, 2, 10002, Status.pending, none⟩] 1 99 3 (by decide)).2.2.2⟩

/-! ## C7 — capacity exhaustion -/

/-- Counterexample for C7 as stated: in the cited memory variant the
`capacityExhausted` (503) branch is dead code for any nonempty grid.  With
`TAG_STEP = 0.001`, `TAG_MAX = 0.003` and all three slots occupied by pending
invoices, the fourth creation *succeeds* and hands out the already-occupied
tag `0.001` — it does not fail, it does create an invoice, and it reuses an
occupied tag. -/
theorem createInvoice_reuses_tag_when_full :
    createInvoice [⟨0, 5000, 1, 5001, Status.pending, none⟩,
        ⟨1, 5000, 2, 5002, Status.pending, none⟩,
        ⟨2, 5000, 3, 5003, Status.pending, none⟩] 9 5000 1 3
      = (CreateResult.created ⟨9, 5000, 1, 5001, Status.pending, none⟩,
         [⟨0, 5000, 1, 5001, Status.pending, none⟩,
          ⟨1, 5000, 2, 5002, Status.pending, none⟩,
          ⟨2, 5000, 3, 5003, Status.pending, none⟩,
          ⟨9, 5000, 1, 5001, Status.pending, none⟩]) ∧
      (1 : Nat) ∈ pendingTags [⟨0, 5000, 1, 5001, Status.pending, none⟩,
        ⟨1, 5000, 2, 5002, Status.pending, none⟩,
        ⟨2, 5000, 3, 5003, Status.pending, none⟩] := by
  exact ⟨by decide, by decide⟩

/-- C7 (amended): capacity exhaustion works as claimed only in the db variant:
when every grid slot is occupied by a pending invoice, `createInvoiceDb`
answers the retryable `503` (`capacityExhausted`) and creates nothing, and a
successful `allocateTagFromDb` never returns an occupied tag — concretely with
`TAG_STEP = 0.001`, `TAG_MAX = 0.003` and three pending invoices filling the
grid.  The memory variant's handler instead always creates an invoice with
tag `TAG_STEP` whenever the grid is nonempty (its 503 branch is unreachable
then), because its allocator's used-check never matches. -/
theorem createInvoiceDb_capacity_exhausted (invs : List Invoice)
    (id amountMilli TAG_STEP TAG_MAX t : Nat) :
    (amountMilli ≠ 0 → (∀ u ∈ tagGrid TAG_STEP TAG_MAX, u ∈ pendingTags invs) →
        createInvoiceDb invs id amountMilli TAG_STEP TAG_MAX
          = (CreateResult.capacityExhausted, invs)) ∧
    (allocateTagFromDb invs TAG_STEP TAG_MAX = some t → t ∉ pendingTags invs) ∧
    (amountMilli ≠ 0 → tagGrid TAG_STEP TAG_MAX ≠ [] →
        (createInvoice invs id amountMilli TAG_STEP TAG_MAX).1
          = CreateResult.created
              ⟨id, amountMilli, TAG_STEP, amountMilli + TAG_STEP,
                Status.pending, none⟩) ∧
    createInvoiceDb
        [⟨0, 5000, 1, 5001, Status.pending, none⟩,
         ⟨1, 5000, 2, 5002, Status.pending, none⟩,
         ⟨2, 5000, 3, 5003, Status.pending, none⟩] 9 5000 1 3
      = (CreateResult.capacityExhausted,
         [⟨0, 5000, 1, 5001, Status.pending, none⟩,
          ⟨1, 5000, 2, 5002, Status.pending, none⟩,
          ⟨2, 5000, 3, 5003, Status.pending, none⟩]) := by
  refine ⟨?_, fun h => (allocateTagFromDb_fresh h).2, ?_, by decide⟩
  · intro hamt hocc
    have hnone : allocateTagFromDb invs TAG_STEP TAG_MAX = none := by
      unfold allocateTagFromDb
      rw [List.find?_eq_none]
      intro u hu
      have hc : (pendingTags invs).contains u = true := List.elem_iff.mpr (hocc u hu)
      simp [hc]
      exact hocc u hu
    unfold createInvoiceDb
    rw [if_neg hamt, hnone]
  · intro hamt hgrid
    unfold createInvoice
    rw [if_neg hamt, allocateTag_head invs TAG_STEP TAG_MAX hgrid]

/-- Witness for C7 (amended): the fully-occupied `TAG_STEP = 0.001`,
`TAG_MAX = 0.003` configuration — the db handler answers 503 and stores
nothing, the memory handler creates the tag-0.001 invoice. -/
theorem createInvoiceDb_capacity_exhausted_witness :
    createInvoiceDb
        [⟨0, 5000, 1, 5001, Status.pending, none⟩,
         ⟨1, 5000, 2, 5002, Status.pending, none⟩,
         ⟨2, 5000, 3, 5003, Status.pending, none⟩] 9 5000 1 3
      = (CreateResult.capacityExhausted,
         [⟨0, 5000, 1, 5001, Status.pending, none⟩,
          ⟨1, 5000, 2, 5002, Status.pending, none⟩,
          ⟨2, 5000, 3, 5003, Status.pending, none⟩]) ∧
      (createInvoice
          [⟨0, 5000, 1, 5001, Status.pending, none⟩,
           ⟨1, 5000, 2, 5002, Status.pending, none⟩,
           ⟨2, 5000, 3, 5003, Status.pending, none⟩] 9 5000 1 3).1
        = CreateResult.created ⟨9, 5000, 1, 5001, Status.pending, none⟩ :=
  ⟨(createInvoiceDb_capacity_exhausted
      [⟨0, 5000, 1, 5001, Status.pending, none⟩,
       ⟨1, 5000, 2, 5002, Status.pending, none⟩,
       ⟨2, 5000, 3, 5003, Status.pending, none⟩] 9 5000 1 3 0).1
     (by decide) (by decide),
   (createInvoiceDb_capacity_exhausted
      [⟨0, 5000, 1, 5001, Status.pending, none⟩,
       ⟨1, 5000, 2, 5002, Status.pending, none⟩,
       ⟨2, 5000, 3, 5003, Status.pending, none⟩] 9 5000 1 3 0).2.2.1
     (by decide) (by decide)⟩


/-! ## C5 — idempotent confirmation -/

/-- C5: the conditional `confirm` transition succeeds only when the invoice is
still pending (otherwise the whole call is a no-op), a pending invoice with the
given id becomes `confirmed` with its `txHash` set, and a second call — with
any transaction hash — is a no-op that leaves the status and the `txHash` set
by the first call unchanged. -/
theorem confirm_idempotent (invs : List Invoice) (id : Nat) (tx tx2 : String) :
    confirm (confirm invs id tx) id tx2 = confirm invs id tx ∧
    ((∀ i ∈ invs, i.id = id → i.status ≠ Status.pending) → confirm invs id tx = invs) ∧
    (∀ i ∈ invs, i.id = id → i.status = Status.pending →
      { i with status := Status.confirmed, txHash := some tx } ∈ confirm invs id tx) := by
  refine ⟨?_, ?_, ?_⟩
  · unfold confirm
    rw [List.map_map]
    apply List.map_congr_left
    intro i _
    by_cases hc : i.id = id ∧ i.status = Status.pending
    · simp only [Function.comp_apply, if_pos hc]
      rw [if_neg]
      intro hcontra
      exact absurd hcontra.2 (by simp)
    · simp only [Function.comp_apply, if_neg hc, if_neg hc]
  · intro h
    unfold confirm
    conv_rhs => rw [← List.map_id invs]
    apply List.map_congr_left
    intro i hi
    rw [if_neg]
    · rfl
    · rintro ⟨h1, h2⟩
      exact h i hi h1 h2
  · intro i hi h1 h2
    have hcond : i.id = id ∧ i.status = Status.pending := ⟨h1, h2⟩
    have hmem := List.mem_map_of_mem
      (fun j : Invoice =>
        if j.id = id ∧ j.status = Status.pending then
          { j with status := Status.confirmed, txHash := some tx }
        else j) hi
    simp only [if_pos hcond] at hmem
    exact hmem

/-- Witness for C5: one pending invoice, confirmed by `"0xaa"`; a second
confirm with `"0xbb"` changes nothing. -/
theorem confirm_idempotent_witness :
    confirm (confirm [⟨0, 10000, 1, 10001, Status.pending, none⟩] 0 "0xaa") 0 "0xbb"
        = confirm [⟨0, 10000, 1, 10001, Status.pending, none⟩] 0 "0xaa" ∧
      ⟨0, 10000, 1, 10001, Status.confirmed, some "0xaa"⟩
        ∈ confirm [⟨0, 10000, 1, 10001, Status.pending, none⟩] 0 "0xaa" :=
  ⟨(confirm_idempotent [⟨0, 10000, 1, 10001, Status.pending, none⟩] 0 "0xaa" "0xbb").1,
   (confirm_idempotent [⟨0, 10000, 1, 10001, Status.pending, none⟩] 0 "0xaa" "0xbb").2.2
     ⟨0, 10000, 1, 10001, Status.pending, none⟩ (by decide) (by decide) (by decide)⟩

/-! ## C2 — exact smallest-unit reconciliation -/

/-- C2: a pending invoice's 3-decimal `payAmount` equals a transfer's amount
under `amountsEqual` exactly when the raw integer token value is
`payAmount · 10 ^ (DECIMALS - 3)`; concretely, in the reconciliation loop an
invoice with `payAmount = 10.001` is confirmed by a transfer of raw value
`10.001 · 10 ^ 18` and left pending by the different smallest-unit value
`10.0011 · 10 ^ 18`. -/
theorem amountsEqual_exact_smallest_unit (DECIMALS payMilli v : Nat)
    (_h3 : 3 ≤ DECIMALS) :
    (amountsEqual ⟨payMilli, 3⟩ ⟨v, DECIMALS⟩ DECIMALS = true ↔
        payMilli * 10 ^ (DECIMALS - 3) = v) ∧
    (processTransferDb "a" 18 0 ⟨[⟨0, 10000, 1, 10001, Status.pending, none⟩], []⟩
        ⟨"0xaa", "a", 10001 * 10 ^ 15, 7⟩).1.invoices
      = [⟨0, 10000, 1, 10001, Status.confirmed, some "0xaa"⟩] ∧
    (processTransferDb "a" 18 0 ⟨[⟨0, 10000, 1, 10001, Status.pending, none⟩], []⟩
        ⟨"0xab", "a", 100011 * 10 ^ 14, 7⟩).1.invoices
      = [⟨0, 10000, 1, 10001, Status.pending, none⟩] := by
  refine ⟨?_, by decide, by decide⟩
  unfold amountsEqual parseUnits
  simp [Nat.sub_self]

/-- Witness for C2 at the token's real precision `DECIMALS = 18` and
`payAmount = 10.001`. -/
theorem amountsEqual_exact_smallest_unit_witness :
    3 ≤ 18 ∧
      ((amountsEqual ⟨10001, 3⟩ ⟨10001 * 10 ^ 15, 18⟩ 18 = true ↔
          10001 * 10 ^ (18 - 3) = 10001 * 10 ^ 15) ∧
        (processTransferDb "a" 18 0 ⟨[⟨0, 10000, 1, 10001, Status.pending, none⟩], []⟩
            ⟨"0xaa", "a", 10001 * 10 ^ 15, 7⟩).1.invoices
          = [⟨0, 10000, 1, 10001, Status.confirmed, some "0xaa"⟩] ∧
        (processTransferDb "a" 18 0 ⟨[⟨0, 10000, 1, 10001, Status.pending, none⟩], []⟩
            ⟨"0xab", "a", 100011 * 10 ^ 14, 7⟩).1.invoices
          = [⟨0, 10000, 1, 10001, Status.pending, none⟩]) :=
  ⟨by decide, amountsEqual_exact_smallest_unit 18 10001 (10001 * 10 ^ 15) (by decide)⟩

/-! ## Helper lemmas about the db reconciliation loop -/

/-- An already-recorded transaction hash makes the loop body a no-op. -/
theorem processTransferDb_skip_of_processed (addr : String) (DECIMALS now : Nat)
    (s : DbState) (t : Transfer)
    (h : toLowerCase t.hash ∈ s.processed.map Prod.fst) :
    processTransferDb addr DECIMALS now s t = (s, []) := by
  have hany : s.processed.any (fun p => decide (p.1 = toLowerCase t.hash)) = true := by
    rw [List.any_eq_true]
    rcases List.mem_map.mp h with ⟨p, hp, hpe⟩
    exact ⟨p, hp, by simp [hpe]⟩
  unfold processTransferDb
  by_cases h1 : toLowerCase t.hash = ""
  · simp [h1]
  · by_cases h2 : toLowerCase t.toAddr ≠ toLowerCase addr
    · simp [h1, h2]
    · simp [h1, h2, hany]

/-- An empty transaction hash makes the loop body a no-op. -/
theorem processTransferDb_skip_of_empty_hash (addr : String) (DECIMALS now : Nat)
    (s : DbState) (t : Transfer) (h : toLowerCase t.hash = "") :
    processTransferDb addr DECIMALS now s t = (s, []) := by
  unfold processTransferDb
  simp [h]

/-- A transfer to a different destination address makes the loop body a no-op. -/
theorem processTransferDb_skip_of_wrong_addr (addr : String) (DECIMALS now : Nat)
    (s : DbState) (t : Transfer) (h : toLowerCase t.toAddr ≠ toLowerCase addr) :
    processTransferDb addr DECIMALS now s t = (s, []) := by
  unfold processTransferDb
  by_cases h1 : toLowerCase t.hash = ""
  · simp [h1]
  · simp [h1, h]

/-- A fresh, addressed transfer always appends its lower-cased hash to the
dedup ledger and produces exactly one log event, whether or not it matches. -/
theorem processTransferDb_fresh_spec (addr : String) (DECIMALS now : Nat)
    (s : DbState) (t : Transfer)
    (hne : toLowerCase t.hash ≠ "") (hto : toLowerCase t.toAddr = toLowerCase addr)
    (hfresh : toLowerCase t.hash ∉ s.processed.map Prod.fst) :
    (processTransferDb addr DECIMALS now s t).1.processed
        = s.processed ++ [(toLowerCase t.hash, now)] ∧
      (processTransferDb addr DECIMALS now s t).2.length = 1 := by
  have hany : s.processed.any (fun p => decide (p.1 = toLowerCase t.hash)) = false := by
    rw [← Bool.not_eq_true, List.any_eq_true]
    rintro ⟨p, hp, he⟩
    exact hfresh (List.mem_map.mpr ⟨p, hp, by simpa using he⟩)
  unfold processTransferDb
  cases hfind : (pendingInvoices s.invoices).find?
      (fun i => amountsEqual ⟨i.payAmount, 3⟩ ⟨t.value, DECIMALS⟩ DECIMALS) with
  | none => simp [hne, hto, hany, hfind]
  | some inv => simp [hne, hto, hany, hfind]

/-- A single-transfer cycle is the loop body followed by the retention prune. -/
theorem runCycleDb_singleton (addr : String) (DECIMALS now : Nat)
    (s : DbState) (t : Transfer) :
    runCycleDb addr DECIMALS now s [t]
      = (pruneProcessed now (processTransferDb addr DECIMALS now s t).1,
         (processTransferDb addr DECIMALS now s t).2) := by
  unfold runCycleDb
  simp

/-- Pruning the dedup ledger never touches the invoices. -/
theorem pruneProcessed_invoices (now : Nat) (s : DbState) :
    (pruneProcessed now s).invoices = s.invoices := rfl

/-- A record just written at the cycle's own time survives that cycle's prune. -/
theorem pruneProcessed_keeps_now (now : Nat) (s : DbState) (h : String) (sa : Nat)
    (hmem : (h, sa) ∈ s.processed) (hsa : ¬ sa + RETENTION_SECONDS < now) :
    h ∈ (pruneProcessed now s).processed.map Prod.fst := by
  refine List.mem_map.mpr ⟨(h, sa), ?_, rfl⟩
  unfold pruneProcessed
  simp only [List.mem_filter]
  exact ⟨hmem, by simp [hsa]⟩

/-! ## C3 — deduplication across cycles -/

/-- C3: a transaction hash recorded in the dedup ledger is never acted on
again (the loop body is a no-op on it), and replaying an identical,
previously-unseen transfer over two consecutive poll cycles produces at most
one log event in the first cycle and none in the second, which also leaves all
invoices exactly as the first cycle left them. -/
theorem dedup_ledger_replay (addr : String) (DECIMALS now1 now2 : Nat)
    (s : DbState) (t : Transfer)
    (hfresh : toLowerCase t.hash ∉ s.processed.map Prod.fst) :
    (∀ (s2 : DbState) (now : Nat), toLowerCase t.hash ∈ s2.processed.map Prod.fst →
        processTransferDb addr DECIMALS now s2 t = (s2, [])) ∧
      (runCycleDb addr DECIMALS now1 s [t]).2.length ≤ 1 ∧
      (runCycleDb addr DECIMALS now2 (runCycleDb addr DECIMALS now1 s [t]).1 [t]).1.invoices
        = (runCycleDb addr DECIMALS now1 s [t]).1.invoices ∧
      (runCycleDb addr DECIMALS now2 (runCycleDb addr DECIMALS now1 s [t]).1 [t]).2 = [] := by
  have hlen : (runCycleDb addr DECIMALS now1 s [t]).2.length ≤ 1 := by
    rw [runCycleDb_singleton]
    by_cases h1 : toLowerCase t.hash = ""
    · rw [processTransferDb_skip_of_empty_hash addr DECIMALS now1 s t h1]
      simp
    · by_cases h2 : toLowerCase t.toAddr ≠ toLowerCase addr
      · rw [processTransferDb_skip_of_wrong_addr addr DECIMALS now1 s t h2]
        simp
      · have hspec :=
          (processTransferDb_fresh_spec addr DECIMALS now1 s t h1 (not_not.mp h2) hfresh).2
        dsimp only
        omega
  have hkey : processTransferDb addr DECIMALS now2 (runCycleDb addr DECIMALS now1 s [t]).1 t
      = ((runCycleDb addr DECIMALS now1 s [t]).1, []) := by
    by_cases h1 : toLowerCase t.hash = ""
    · exact processTransferDb_skip_of_empty_hash addr DECIMALS now2 _ t h1
    · by_cases h2 : toLowerCase t.toAddr ≠ toLowerCase addr
      · exact processTransferDb_skip_of_wrong_addr addr DECIMALS now2 _ t h2
      · apply processTransferDb_skip_of_processed
        rw [runCycleDb_singleton]
        have hproc :=
          (processTransferDb_fresh_spec addr DECIMALS now1 s t h1 (not_not.mp h2) hfresh).1
        refine pruneProcessed_keeps_now now1 _ (toLowerCase t.hash) now1 ?_ (by omega)
        rw [hproc]
        exact List.mem_append.mpr (Or.inr (List.mem_singleton.mpr rfl))
  refine ⟨fun s2 now h => processTransferDb_skip_of_processed addr DECIMALS now s2 t h,
    hlen, ?_, ?_⟩
  · rw [runCycleDb_singleton addr DECIMALS now2, hkey, pruneProcessed_invoices]
  · rw [runCycleDb_singleton addr DECIMALS now2, hkey]

/-- Witness for C3: the transfer `("0xaa", to "a", 5 units, t=1)` replayed
over the cycles at times `0` and `12`, starting from one pending invoice and
an empty ledger. -/
theorem dedup_ledger_replay_witness :
    (runCycleDb "a" 18 0 ⟨[⟨0, 10000, 1, 10001, Status.pending, none⟩], []⟩
        [⟨"0xaa", "a", 5, 1⟩]).2.length ≤ 1 ∧
      (runCycleDb "a" 18 12
          (runCycleDb "a" 18 0 ⟨[⟨0, 10000, 1, 10001, Status.pending, none⟩], []⟩
            [⟨"0xaa", "a", 5, 1⟩]).1 [⟨"0xaa", "a", 5, 1⟩]).1.invoices
        = (runCycleDb "a" 18 0 ⟨[⟨0, 10000, 1, 10001, Status.pending, none⟩], []⟩
            [⟨"0xaa", "a", 5, 1⟩]).1.invoices ∧
      (runCycleDb "a" 18 12
          (runCycleDb "a" 18 0 ⟨[⟨0, 10000, 1, 10001, Status.pending, none⟩], []⟩
            [⟨"0xaa", "a", 5, 1⟩]).1 [⟨"0xaa", "a", 5, 1⟩]).2 = [] :=
  ⟨(dedup_ledger_replay "a" 18 0 12 ⟨[⟨0, 10000, 1, 10001, Status.pending, none⟩], []⟩
      ⟨"0xaa", "a", 5, 1⟩ (by decide)).2.1,
   (dedup_ledger_replay "a" 18 0 12 ⟨[⟨0, 10000, 1, 10001, Status.pending, none⟩], []⟩
      ⟨"0xaa", "a", 5, 1⟩ (by decide)).2.2.1,
   (dedup_ledger_replay "a" 18 0 12 ⟨[⟨0, 10000, 1, 10001, Status.pending, none⟩], []⟩
      ⟨"0xaa", "a", 5, 1⟩ (by decide)).2.2.2⟩

/-! ## C8 — unmatched deposits change no invoice -/

/-- The memory variant's matching loop leaves the store untouched when no
pending invoice's `payAmount` equals the received amount. -/
theorem confirmFirstMatch_eq_self (DECIMALS : Nat) (received : Decimal) (tx : String) :
    ∀ invs : List Invoice,
      (∀ i ∈ invs, i.status = Status.pending →
        amountsEqual ⟨i.payAmount, 3⟩ received DECIMALS = false) →
      confirmFirstMatch DECIMALS received tx invs = invs := by
  intro invs
  induction invs with
  | nil => intro _; rfl
  | cons i rest ih =>
    intro h
    unfold confirmFirstMatch
    rw [if_neg]
    · rw [ih (fun j hj hp => h j (List.mem_cons_of_mem _ hj) hp)]
    · rintro ⟨hp, ha⟩
      rw [h i (List.mem_cons_self i rest) hp] at ha
      exact Bool.false_ne_true ha

/-- C8: a transfer whose amount equals no pending invoice's `payAmount` leaves
every invoice record unchanged, in both loop variants; in the db variant its
only observable trace is the unmatched-deposit log event. -/
theorem unmatched_deposit_frame (addr : String) (DECIMALS now mark : Nat)
    (invs : List Invoice) (proc : List (String × Nat)) (t : Transfer)
    (h : ∀ i ∈ invs, i.status = Status.pending →
      amountsEqual ⟨i.payAmount, 3⟩ ⟨t.value, DECIMALS⟩ DECIMALS = false) :
    (processTransferDb addr DECIMALS now ⟨invs, proc⟩ t).1.invoices = invs ∧
      (∀ e ∈ (processTransferDb addr DECIMALS now ⟨invs, proc⟩ t).2,
        e = Event.unmatched t.value (toLowerCase t.hash)) ∧
      (processTransferMem addr DECIMALS ⟨invs, mark⟩ t).invoices = invs := by
  have hfind : (pendingInvoices invs).find?
      (fun i => amountsEqual ⟨i.payAmount, 3⟩ ⟨t.value, DECIMALS⟩ DECIMALS) = none := by
    rw [List.find?_eq_none]
    intro i hi
    have hmem := List.mem_filter.mp hi
    rw [h i hmem.1 (by simpa using hmem.2)]
    exact Bool.false_ne_true
  have hmemv : (processTransferMem addr DECIMALS ⟨invs, mark⟩ t).invoices = invs := by
    unfold processTransferMem
    by_cases h1 : t.timeStamp = 0
    · simp [h1]
    · by_cases h2 : t.timeStamp ≤ mark
      · simp [h1, h2]
      · by_cases h3 : toLowerCase t.toAddr ≠ toLowerCase addr
        · simp [h1, h2, h3]
        · simp only [if_neg h1, if_neg h2, if_neg h3]
          exact confirmFirstMatch_eq_self DECIMALS ⟨t.value, DECIMALS⟩ t.hash invs h
  refine ⟨?_, ?_, hmemv⟩ <;> unfold processTransferDb
  · by_cases h1 : toLowerCase t.hash = ""
    · simp [h1]
    · by_cases h2 : toLowerCase t.toAddr ≠ toLowerCase addr
      · simp [h1, h2]
      · by_cases h3 : proc.any (fun p => decide (p.1 = toLowerCase t.hash))
        · simp [h1, h2, h3]
        · simp [h1, h2, h3, hfind]
  · by_cases h1 : toLowerCase t.hash = ""
    · simp [h1]
    · by_cases h2 : toLowerCase t.toAddr ≠ toLowerCase addr
      · simp [h1, h2]
      · by_cases h3 : proc.any (fun p => decide (p.1 = toLowerCase t.hash))
        · simp [h1, h2, h3]
        · simp [h1, h2, h3, hfind]

/-- Witness for C8: a transfer of 5 smallest units against a single pending
invoice with `payAmount = 10.001`. -/
theorem unmatched_deposit_frame_witness :
    (processTransferDb "a" 18 0 ⟨[⟨0, 10000, 1, 10001, Status.pending, none⟩], []⟩
        ⟨"0xaa", "a", 5, 1⟩).1.invoices = [⟨0, 10000, 1, 10001, Status.pending, none⟩] ∧
      (processTransferMem "a" 18 ⟨[⟨0, 10000, 1, 10001, Status.pending, none⟩], 0⟩
        ⟨"0xaa", "a", 5, 1⟩).invoices = [⟨0, 10000, 1, 10001, Status.pending, none⟩] :=
  ⟨(unmatched_deposit_frame "a" 18 0 0 [⟨0, 10000, 1, 10001, Status.pending, none⟩] []
      ⟨"0xaa", "a", 5, 1⟩ (by decide)).1,
   (unmatched_deposit_frame "a" 18 0 0 [⟨0, 10000, 1, 10001, Status.pending, none⟩] []
      ⟨"0xaa", "a", 5, 1⟩ (by decide)).2.2⟩

/-! ## C9 — feed soft errors are an empty page -/

/-- Counterexample for C9 as stated: a soft-error feed reply does yield an
empty page, but the db cycle that consumes it still *changes dedup state*:
with a record 30 days + 1 second old in `processed_txs`, the cycle's retention
prune (src/index.js:543) deletes it even though zero transfers were
processed. -/
theorem feed_soft_error_changes_dedup_state :
    fetchIncomingUsdtTransfers (some ⟨"0", some []⟩) = [] ∧
      (runCycleDb "a" 18 (RETENTION_SECONDS + 1) ⟨[], [("0xaa", 0)]⟩
          (fetchIncomingUsdtTransfers (some ⟨"0", some []⟩))).1.processed
        ≠ [("0xaa", 0)] := by
  constructor
  · rfl
  · intro h
    have : (runCycleDb "a" 18 (RETENTION_SECONDS + 1) ⟨[], [("0xaa", 0)]⟩
        (fetchIncomingUsdtTransfers (some ⟨"0", some []⟩))).1.processed = [] := by decide
    rw [this] at h
    exact List.cons_ne_nil _ _ h.symm

/-- C9 (amended): a feed reply with a missing `result` or a status other than
`"1"` is read as an empty transfer list, so the cycle processes zero
transfers, changes no invoice, emits no event and *adds* no dedup record; the
memory-variant cycle is a complete no-op, and the db-variant cycle performs
only the retention prune, whose output ledger is a sublist of the previous
one. -/
theorem feed_soft_error_empty_page (resp : FeedResponse) (addr : String)
    (DECIMALS now : Nat) (s : DbState) (ms : MemState)
    (h : resp.result = none ∨ resp.status ≠ "1") :
    fetchIncomingUsdtTransfers (some resp) = [] ∧
      fetchIncomingUsdtTransfers none = [] ∧
      runCycleDb addr DECIMALS now s (fetchIncomingUsdtTransfers (some resp))
        = (pruneProcessed now s, []) ∧
      (pruneProcessed now s).invoices = s.invoices ∧
      (pruneProcessed now s).processed.Sublist s.processed ∧
      runCycleMem addr DECIMALS ms (fetchIncomingUsdtTransfers (some resp)) = ms := by
  have hempty : fetchIncomingUsdtTransfers (some resp) = [] := by
    obtain ⟨st, res⟩ := resp
    cases res with
    | none => rfl
    | some l =>
      rcases h with h | h
      · simp at h
      · show (if (st : String) ≠ "1" then ([] : List Transfer) else l) = []
        rw [if_pos h]
  refine ⟨hempty, rfl, ?_, rfl, List.filter_sublist _, ?_⟩
  · rw [hempty]
    unfold runCycleDb
    simp
  · rw [hempty]
    rfl

/-- Witness for C9 (amended): a rate-limit style reply `status = "0"` against
a one-invoice, one-record state at time 12. -/
theorem feed_soft_error_empty_page_witness :
    fetchIncomingUsdtTransfers (some ⟨"0", some []⟩) = [] ∧
      fetchIncomingUsdtTransfers none = [] ∧
      runCycleDb "a" 18 12 ⟨[⟨0, 10000, 1, 10001, Status.pending, none⟩], [("0xaa", 1)]⟩
          (fetchIncomingUsdtTransfers (some ⟨"0", some []⟩))
        = (pruneProcessed 12 ⟨[⟨0, 10000, 1, 10001, Status.pending, none⟩], [("0xaa", 1)]⟩,
           []) ∧
      (pruneProcessed 12 ⟨[⟨0, 10000, 1, 10001, Status.pending, none⟩],
          [("0xaa", 1)]⟩).invoices = [⟨0, 10000, 1, 10001, Status.pending, none⟩] ∧
      (pruneProcessed 12 ⟨[⟨0, 10000, 1, 10001, Status.pending, none⟩],
          [("0xaa", 1)]⟩).processed.Sublist [("0xaa", 1)] ∧
      runCycleMem "a" 18 ⟨[⟨0, 10000, 1, 10001, Status.pending, none⟩], 7⟩
          (fetchIncomingUsdtTransfers (some ⟨"0", some []⟩))
        = ⟨[⟨0, 10000, 1, 10001, Status.pending, none⟩], 7⟩ :=
  feed_soft_error_empty_page ⟨"0", some []⟩ "a" 18 12
    ⟨[⟨0, 10000, 1, 10001, Status.pending, none⟩], [("0xaa", 1)]⟩
    ⟨[⟨0, 10000, 1, 10001, Status.pending, none⟩], 7⟩ (Or.inr (by decide))

/-! ## C10 — unmatched transfers are marked processed forever -/

/-- C10: the db loop records a fresh, addressed transfer as processed even
when it matches no pending invoice (leaving the invoices untouched and logging
one unmatched event), and once its hash is in the ledger every later body run
of the loop on that transfer changes no invoice and emits nothing —
concretely, a payment of exactly `10.001` USDT that arrives while no invoice
carries that amount is logged unmatched, and when it is re-reported after an
invoice with `payAmount = 10.001` has been created, that invoice still stays
pending. -/
theorem unmatched_transfer_never_confirms_later (addr : String) (DECIMALS now : Nat)
    (s : DbState) (t : Transfer)
    (hne : toLowerCase t.hash ≠ "") (hto : toLowerCase t.toAddr = toLowerCase addr)
    (hfresh : toLowerCase t.hash ∉ s.processed.map Prod.fst)
    (hnomatch : ∀ i ∈ s.invoices, i.status = Status.pending →
      amountsEqual ⟨i.payAmount, 3⟩ ⟨t.value, DECIMALS⟩ DECIMALS = false) :
    (processTransferDb addr DECIMALS now s t).1
        = ⟨s.invoices, s.processed ++ [(toLowerCase t.hash, now)]⟩ ∧
      (processTransferDb addr DECIMALS now s t).2
        = [Event.unmatched t.value (toLowerCase t.hash)] ∧
      (∀ (s2 : DbState) (now2 : Nat), toLowerCase t.hash ∈ s2.processed.map Prod.fst →
        (processTransferDb addr DECIMALS now2 s2 t).1.invoices = s2.invoices ∧
          (processTransferDb addr DECIMALS now2 s2 t).2 = []) ∧
      (runCycleDb "a" 18 0 ⟨[], []⟩ [⟨"0xcc", "a", 10001 * 10 ^ 15, 9⟩]).2
        = [Event.unmatched (10001 * 10 ^ 15) "0xcc"] ∧
      (createInvoice [] 1 10000 1 99).2 = [⟨1, 10000, 1, 10001, Status.pending, none⟩] ∧
      (runCycleDb "a" 18 12
          ⟨(createInvoice [] 1 10000 1 99).2,
           (runCycleDb "a" 18 0 ⟨[], []⟩ [⟨"0xcc", "a", 10001 * 10 ^ 15, 9⟩]).1.processed⟩
          [⟨"0xcc", "a", 10001 * 10 ^ 15, 9⟩]).1.invoices
        = [⟨1, 10000, 1, 10001, Status.pending, none⟩] ∧
      (runCycleDb "a" 18 12
          ⟨(createInvoice [] 1 10000 1 99).2,
           (runCycleDb "a" 18 0 ⟨[], []⟩ [⟨"0xcc", "a", 10001 * 10 ^ 15, 9⟩]).1.processed⟩
          [⟨"0xcc", "a", 10001 * 10 ^ 15, 9⟩]).2 = [] := by
  have hany : s.processed.any (fun p => decide (p.1 = toLowerCase t.hash)) = false := by
    rw [← Bool.not_eq_true, List.any_eq_true]
    rintro ⟨p, hp, he⟩
    exact hfresh (List.mem_map.mpr ⟨p, hp, by simpa using he⟩)
  have hfind : (pendingInvoices s.invoices).find?
      (fun i => amountsEqual ⟨i.payAmount, 3⟩ ⟨t.value, DECIMALS⟩ DECIMALS) = none := by
    rw [List.find?_eq_none]
    intro i hi
    have hmem := List.mem_filter.mp hi
    rw [hnomatch i hmem.1 (by simpa using hmem.2)]
    exact Bool.false_ne_true
  have hskip : ∀ (s2 : DbState) (now2 : Nat),
      toLowerCase t.hash ∈ s2.processed.map Prod.fst →
      (processTransferDb addr DECIMALS now2 s2 t).1.invoices = s2.invoices ∧
        (processTransferDb addr DECIMALS now2 s2 t).2 = [] := by
    intro s2 now2 h2
    rw [processTransferDb_skip_of_processed addr DECIMALS now2 s2 t h2]
    exact ⟨rfl, rfl⟩
  refine ⟨?_, ?_, hskip, by decide, by decide, by decide, by decide⟩ <;>
    · unfold processTransferDb
      simp [hne, hto, hany, hfind]

/-- Witness for C10: the fresh unmatched transfer `("0xcc", to "a",
`10.001 · 10 ^ 18` units)` against an empty store. -/
theorem unmatched_transfer_never_confirms_later_witness :
    (processTransferDb "a" 18 0 ⟨[], []⟩ ⟨"0xcc", "a", 10001 * 10 ^ 15, 9⟩).1
        = ⟨[], [("0xcc", 0)]⟩ ∧
      (processTransferDb "a" 18 0 ⟨[], []⟩ ⟨"0xcc", "a", 10001 * 10 ^ 15, 9⟩).2
        = [Event.unmatched (10001 * 10 ^ 15) "0xcc"] :=
  ⟨((unmatched_transfer_never_confirms_later "a" 18 0 ⟨[], []⟩
        ⟨"0xcc", "a", 10001 * 10 ^ 15, 9⟩ (by decide) (by decide) (by decide)
        (by decide)).1).trans (by decide),
   ((unmatched_transfer_never_confirms_later "a" 18 0 ⟨[], []⟩
        ⟨"0xcc", "a", 10001 * 10 ^ 15, 9⟩ (by decide) (by decide) (by decide)
        (by decide)).2.1).trans (by decide)⟩

/-! ## C6 — the high-water-mark variant permanently misses what the
dedup-ledger variant catches -/

/-- The pending invoice of the C6 scenario (`payAmount = 10.001`). -/
def c6Invoice : Invoice := ⟨0, 10000, 1, 10001, Status.pending, none⟩

/-- A newer transfer whose amount matches nothing; its timestamp 100 advances
the high-water mark. -/
def c6New : Transfer := ⟨"0xaa", "a", 5, 100⟩

/-- The delayed transfer: never seen before, pays the invoice exactly, but is
reported with timestamp 50, behind the already-advanced mark. -/
def c6Missed : Transfer := ⟨"0xbb", "a", 10001 * 10 ^ 15, 50⟩

/-- Memory variant after the first cycle (feed `[c6New]`): mark is 100. -/
def c6Mem1 : MemState := runCycleMem "a" 18 ⟨[c6Invoice], 0⟩ [c6New]

/-- Memory variant after the second cycle, where the feed re-reports the page
out of timestamp order (`[c6New, c6Missed]`, newest first). -/
def c6Mem2 : MemState := runCycleMem "a" 18 c6Mem1 [c6New, c6Missed]

/-- Db variant run over the same two feed pages (cycle times 100 and 112). -/
def c6Db2 : DbState × List Event :=
  runCycleDb "a" 18 112 (runCycleDb "a" 18 100 ⟨[c6Invoice], []⟩ [c6New]).1
    [c6New, c6Missed]

/-- C6: in the scenario above, the never-before-seen matching transfer is
reported with a timestamp at or below the already-advanced high-water mark;
the timestamp variant skips it in that cycle and in every later cycle that
re-reports the same page (the state is a fixed point, so the invoice stays
pending forever), while the dedup-ledger variant matches it and confirms the
invoice. -/
theorem highWaterMark_misses_dedup_catches (n : Nat) :
    c6Missed.timeStamp ≤ c6Mem1.lastProcessedTime ∧
      c6Mem2.invoices = [c6Invoice] ∧
      (fun s => runCycleMem "a" 18 s [c6New, c6Missed])^[n] c6Mem2 = c6Mem2 ∧
      c6Db2.1.invoices = [⟨0, 10000, 1, 10001, Status.confirmed, some "0xbb"⟩] ∧
      c6Db2.2 = [Event.confirmed 0 "0xbb"] := by
  refine ⟨by decide, by decide, ?_, by decide, by decide⟩
  apply Function.iterate_fixed
  decide

/-- Witness-style instance of C6 at `n = 2` further iterations. -/
theorem highWaterMark_misses_dedup_catches_witness :
    c6Mem2.invoices = [c6Invoice] ∧
      (fun s => runCycleMem "a" 18 s [c6New, c6Missed])^[2] c6Mem2 = c6Mem2 ∧
      c6Db2.2 = [Event.confirmed 0 "0xbb"] :=
  ⟨(highWaterMark_misses_dedup_catches 2).2.1,
   (highWaterMark_misses_dedup_catches 2).2.2.1,
   (highWaterMark_misses_dedup_catches 2).2.2.2.2⟩

/-- Counterexample for C3 as stated: the 30-day retention prune
(src/index.js:543) can drop a recorded transaction id, after which a cycle
*does* act on the re-reported transfer again.  The transfer `"0xaa"` is
processed (and logged unmatched) at time 0; at time `RETENTION + 1` the cycle
still skips it but the prune deletes its record; the cycle at
`RETENTION + 2` then re-processes it and emits a second unmatched-deposit
event for the same transaction id. -/
theorem dedup_acts_again_after_retention :
    (runCycleDb "a" 18 0 ⟨[], []⟩ [⟨"0xaa", "a", 5, 1⟩]).2
        = [Event.unmatched 5 "0xaa"] ∧
      (runCycleDb "a" 18 (RETENTION_SECONDS + 2)
          (runCycleDb "a" 18 (RETENTION_SECONDS + 1)
            (runCycleDb "a" 18 0 ⟨[], []⟩ [⟨"0xaa", "a", 5, 1⟩]).1
            [⟨"0xaa", "a", 5, 1⟩]).1
          [⟨"0xaa", "a", 5, 1⟩]).2 = [Event.unmatched 5 "0xaa"] := by
  exact ⟨by decide, by decide⟩

/-- Counterexample for C10 as stated: "permanently unmatched" fails once the
retention prune expires the dedup record.  A transfer of exactly `10.001` USDT
is first seen at time 0 with no invoices (unmatched, recorded); an invoice
with `payAmount = 10.001` is created afterwards; at `RETENTION + 1` the
record is pruned, and the cycle at `RETENTION + 2` re-processes the
re-reported transfer and *confirms* the later-created invoice. -/
theorem unmatched_transfer_confirms_after_retention :
    (runCycleDb "a" 18 (RETENTION_SECONDS + 2)
        (runCycleDb "a" 18 (RETENTION_SECONDS + 1)
          ⟨(createInvoice [] 1 10000 1 99).2,
           (runCycleDb "a" 18 0 ⟨[], []⟩
             [⟨"0xbb", "a", 10001 * 10 ^ 15, 5⟩]).1.processed⟩
          [⟨"0xbb", "a", 10001 * 10 ^ 15, 5⟩]).1
        [⟨"0xbb", "a", 10001 * 10 ^ 15, 5⟩]).2
      = [Event.confirmed 1 "0xbb"] := by
  decide

/-! ## C1 — pending pay-amount uniqueness -/

/-- Every invoice produced by the matching loop keeps the amount fields of an
invoice of the input store. -/
theorem confirmFirstMatch_fields (DECIMALS : Nat) (received : Decimal) (tx : String) :
    ∀ (invs : List Invoice) (j : Invoice), j ∈ confirmFirstMatch DECIMALS received tx invs →
      ∃ i ∈ invs, j.requestedAmount = i.requestedAmount ∧ j.tag = i.tag ∧
        j.payAmount = i.payAmount := by
  intro invs
  induction invs with
  | nil =>
    intro j hj
    simp only [confirmFirstMatch] at hj
    exact absurd hj (List.not_mem_nil j)
  | cons i rest ih =>
    intro j hj
    unfold confirmFirstMatch at hj
    by_cases hc : i.status = Status.pending ∧
        amountsEqual ⟨i.payAmount, 3⟩ received DECIMALS = true
    · rw [if_pos hc] at hj
      rcases List.mem_cons.mp hj with rfl | hj'
      · exact ⟨i, List.mem_cons_self i rest, rfl, rfl, rfl⟩
      · exact ⟨j, List.mem_cons_of_mem i hj', rfl, rfl, rfl⟩
    · rw [if_neg hc] at hj
      rcases List.mem_cons.mp hj with rfl | hj'
      · exact ⟨j, List.mem_cons_self j rest, rfl, rfl, rfl⟩
      · rcases ih j hj' with ⟨i', hi', hf⟩
        exact ⟨i', List.mem_cons_of_mem i hi', hf⟩

/-- Every invoice after one loop-body step keeps the amount fields of a stored
invoice. -/
theorem processTransferMem_fields (addr : String) (DECIMALS : Nat)
    (s : MemState) (t : Transfer) :
    ∀ j ∈ (processTransferMem addr DECIMALS s t).invoices,
      ∃ i ∈ s.invoices, j.requestedAmount = i.requestedAmount ∧ j.tag = i.tag ∧
        j.payAmount = i.payAmount := by
  unfold processTransferMem
  split
  · exact fun j hj => ⟨j, hj, rfl, rfl, rfl⟩
  · split
    · exact fun j hj => ⟨j, hj, rfl, rfl, rfl⟩
    · split
      · exact fun j hj => ⟨j, hj, rfl, rfl, rfl⟩
      · exact confirmFirstMatch_fields DECIMALS ⟨t.value, DECIMALS⟩ t.hash s.invoices

/-- The invariant actually maintained by the memory variant: every stored
invoice satisfies `payAmount = requestedAmount + tag`, and — the dead
used-check — every stored invoice's tag is the first grid point `TAG_STEP`. -/
def MemInv (TAG_STEP : Nat) (invs : List Invoice) : Prop :=
  ∀ i ∈ invs, i.payAmount = i.requestedAmount + i.tag ∧ i.tag = TAG_STEP

/-- One loop-body step preserves the memory invariant (confirmation only
touches `status`/`txHash`). -/
theorem memInv_processTransferMem (addr : String) (DECIMALS TAG_STEP : Nat)
    (s : MemState) (t : Transfer) (h : MemInv TAG_STEP s.invoices) :
    MemInv TAG_STEP (processTransferMem addr DECIMALS s t).invoices := by
  intro j hj
  rcases processTransferMem_fields addr DECIMALS s t j hj with ⟨i, hi, h1, h2, h3⟩
  rw [h1, h2, h3]
  exact h i hi

/-- A whole feed page preserves the memory invariant. -/
theorem memInv_foldl (addr : String) (DECIMALS TAG_STEP : Nat) :
    ∀ (ts : List Transfer) (s : MemState), MemInv TAG_STEP s.invoices →
      MemInv TAG_STEP (ts.foldl (processTransferMem addr DECIMALS) s).invoices := by
  intro ts
  induction ts with
  | nil => exact fun s h => h
  | cons t ts ih =>
    intro s h
    exact ih _ (memInv_processTransferMem addr DECIMALS TAG_STEP s t h)

/-- A full memory-variant cycle preserves the memory invariant (the high-water
mark update does not touch the invoices). -/
theorem memInv_runCycleMem (addr : String) (DECIMALS TAG_STEP : Nat)
    (s : MemState) (ts : List Transfer) (h : MemInv TAG_STEP s.invoices) :
    MemInv TAG_STEP (runCycleMem addr DECIMALS s ts).invoices := by
  have h1 := memInv_foldl addr DECIMALS TAG_STEP ts s h
  unfold runCycleMem
  cases ts with
  | nil => exact h1
  | cons t0 ts' =>
    dsimp only
    split
    · exact h1
    · exact h1

/-- Creation preserves the memory invariant: with a nonempty grid the
allocator always hands out `TAG_STEP`, and the new invoice's `payAmount` is
`requestedAmount + tag` by construction. -/
theorem memInv_createInvoice (invs : List Invoice)
    (id amountMilli TAG_STEP TAG_MAX : Nat)
    (hgrid : tagGrid TAG_STEP TAG_MAX ≠ []) (h : MemInv TAG_STEP invs) :
    MemInv TAG_STEP (createInvoice invs id amountMilli TAG_STEP TAG_MAX).2 := by
  unfold createInvoice
  by_cases hamt : amountMilli = 0
  · rw [if_pos hamt]
    exact h
  · rw [if_neg hamt, allocateTag_head invs TAG_STEP TAG_MAX hgrid]
    dsimp only
    intro j hj
    rcases List.mem_append.mp hj with hj | hj
    · exact h j hj
    · rw [List.mem_singleton.mp hj]
      exact ⟨rfl, rfl⟩

/-- Every reachable state of the memory variant (under a nonempty tag grid)
satisfies the memory invariant. -/
theorem memInv_reachable (addr : String) (DECIMALS TAG_STEP TAG_MAX : Nat)
    (s : MemState) (hgrid : tagGrid TAG_STEP TAG_MAX ≠ [])
    (h : ReachableMem addr DECIMALS TAG_STEP TAG_MAX s) : MemInv TAG_STEP s.invoices := by
  induction h with
  | init => exact fun i hi => absurd hi (List.not_mem_nil i)
  | create s id amountMilli hs hid ih =>
    exact memInv_createInvoice s.invoices id amountMilli TAG_STEP TAG_MAX hgrid ih
  | cycle s ts hs ih => exact memInv_runCycleMem addr DECIMALS TAG_STEP s ts ih

/-- Initial state of the C1 counterexample run. -/
def c1Step0 : MemState := ⟨[], 0⟩

/-- After `POST /api/invoices` with amount `10.000`: tag `0.001`,
`payAmount = 10.001`. -/
def c1Step1 : MemState :=
  { c1Step0 with invoices := (createInvoice c1Step0.invoices 0 10000 1 99).2 }

/-- After a second `POST /api/invoices`, also with amount `10.000`: the
allocator's `used.has` probe is a number while `used` holds the stored string
`"0.001"`, so it never matches and the second invoice again gets tag `0.001`
and `payAmount = 10.001`. -/
def c1Step2 : MemState :=
  { c1Step1 with invoices := (createInvoice c1Step1.invoices 1 10000 1 99).2 }

/-- The two-creation run is reachable. -/
theorem c1Step2_reachable : ReachableMem "a" 18 1 99 c1Step2 := by
  have h1 : ReachableMem "a" 18 1 99 c1Step1 :=
    ReachableMem.create c1Step0 0 10000 ReachableMem.init
      (fun i hi => absurd hi (List.not_mem_nil i))
  exact ReachableMem.create c1Step1 1 10000 h1 (by decide)

/-- Counterexample for C1 as stated: after two `POST /api/invoices` calls for
`10.000` each (defaults `TAG_STEP = 0.001`, `TAG_MAX = 0.099`), the memory
variant holds two pending invoices that *both* carry tag `0.001` and
`payAmount = 10.001`: `allocateTag`'s used-set check compares a numeric probe
against the stored tag strings and never matches, and the `Map` store has no
uniqueness guard on `payAmount`. -/
theorem pending_payAmount_not_unique :
    ReachableMem "a" 18 1 99 c1Step2 ∧
      (pendingInvoices c1Step2.invoices).map Invoice.payAmount = [10001, 10001] ∧
      (pendingInvoices c1Step2.invoices).map Invoice.tag = [1, 1] ∧
      ¬ ((pendingInvoices c1Step2.invoices).Pairwise fun a b =>
          a.payAmount ≠ b.payAmount) :=
  ⟨c1Step2_reachable, by decide, by decide, by decide⟩

/-- C1 (amended): in every reachable state of the memory variant with a
nonempty tag grid, every stored invoice has `payAmount = requestedAmount +
tag` and tag exactly `TAG_STEP` (the allocator's used-set check is dead), so
two pending invoices differ in `payAmount` exactly when they differ in
`requestedAmount` — pay-amount uniqueness holds *only* across distinct
requested amounts and fails whenever two pending invoices requested the same
amount. -/
theorem pending_payAmount_unique_iff_requested (addr : String)
    (DECIMALS TAG_STEP TAG_MAX : Nat) (s : MemState)
    (hgrid : tagGrid TAG_STEP TAG_MAX ≠ [])
    (h : ReachableMem addr DECIMALS TAG_STEP TAG_MAX s) :
    (∀ i ∈ s.invoices, i.payAmount = i.requestedAmount + i.tag ∧ i.tag = TAG_STEP) ∧
      ((pendingInvoices s.invoices).Pairwise fun a b =>
        a.requestedAmount ≠ b.requestedAmount → a.payAmount ≠ b.payAmount) ∧
      ((pendingInvoices s.invoices).Pairwise fun a b =>
        a.requestedAmount = b.requestedAmount → a.payAmount = b.payAmount) := by
  have hInv := memInv_reachable addr DECIMALS TAG_STEP TAG_MAX s hgrid h
  have hmem : ∀ i ∈ pendingInvoices s.invoices,
      i.payAmount = i.requestedAmount + i.tag ∧ i.tag = TAG_STEP :=
    fun i hi => hInv i (List.mem_of_mem_filter hi)
  refine ⟨hInv, ?_, ?_⟩
  · refine List.pairwise_of_forall_mem_list ?_
    intro a ha b hb hne hpay
    apply hne
    rcases hmem a ha with ⟨ha1, ha2⟩
    rcases hmem b hb with ⟨hb1, hb2⟩
    omega
  · refine List.pairwise_of_forall_mem_list ?_
    intro a ha b hb hreq
    rcases hmem a ha with ⟨ha1, ha2⟩
    rcases hmem b hb with ⟨hb1, hb2⟩
    omega

/-- Witness for C1 (amended), at the two-creation counterexample state: the
two pending invoices share the requested amount, and indeed share the pay
amount. -/
theorem pending_payAmount_unique_iff_requested_witness :
    ((pendingInvoices c1Step2.invoices).Pairwise fun a b =>
        a.requestedAmount ≠ b.requestedAmount → a.payAmount ≠ b.payAmount) ∧
      ((pendingInvoices c1Step2.invoices).Pairwise fun a b =>
        a.requestedAmount = b.requestedAmount → a.payAmount = b.payAmount) :=
  ⟨(pending_payAmount_unique_iff_requested "a" 18 1 99 c1Step2 (by decide)
      c1Step2_reachable).2.1,
   (pending_payAmount_unique_iff_requested "a" 18 1 99 c1Step2 (by decide)
      c1Step2_reachable).2.2⟩


end Gateway
